import Mathlib

/-!
Verification of the hotel staff notification ticket log
(`src/hotel_staff_notification.py`).

The program keeps a bounded list of ticket records persisted in a single
JSON file.  We shallowly embed the state of that file as `FileState`
(absent, unreadable/corrupt, or a valid list of records) and translate
each Python function into a pure Lean function that threads the file
state explicitly.  Timestamps come from `datetime.now()` in the source;
here every operation takes the relevant timestamp strings as arguments,
so two calls inside one operation may legitimately receive equal or
distinct strings, exactly as two `datetime.now()` calls may.
-/

set_option maxRecDepth 4096

namespace HotelStaff

/-- One notification record, mirroring the dict literal built in
`notify_staff` (`src/hotel_staff_notification.py:105-114`).  `resolved_at`
is `none` while the key is absent from the dict and `some t` once
`mark_notification_resolved` has added it. -/
structure Notification where
  ticket_number : String
  timestamp : String
  reason : String
  guest_language : String
  priority : String
  location : String
  additional_info : String
  status : String
  resolved_at : Option String := none
deriving Repr, DecidableEq

/-- State of the backing file `hotel_notifications.json`: missing,
present but unreadable or not valid JSON, or a valid serialized list. -/
inductive FileState where
  | absent : FileState
  | corrupt : FileState
  | valid : List Notification → FileState
deriving Repr, DecidableEq

/-- `load_notifications` (`src/hotel_staff_notification.py:38-46`):
returns the parsed list when the file exists and parses; the
`except (json.JSONDecodeError, IOError)` arm and the missing-file arm
both return `[]`, so the embedding is a total function. -/
def load_notifications : FileState → List Notification
  | FileState.valid notifications => notifications
  | _ => []

/-- `save_notification` (`src/hotel_staff_notification.py:49-59`):
load, append, keep only the last 1000 (`notifications[-1000:]`) when the
bound is exceeded, rewrite the file. -/
def save_notification (notification : Notification) (fs : FileState) : FileState :=
  let notifications := load_notifications fs ++ [notification]
  let notifications :=
    if notifications.length > 1000 then
      notifications.drop (notifications.length - 1000)
    else notifications
  FileState.valid notifications

/-- The confirmation dict returned by `notify_staff`
(`src/hotel_staff_notification.py:135-140`). -/
structure NotifyResult where
  success : Bool
  ticket_number : String
  message : String
  estimated_response_time : String
deriving Repr, DecidableEq

/-- The record `notify_staff` builds before saving
(`src/hotel_staff_notification.py:102-114`).  `nowCompact` stands for
`datetime.now().strftime('%Y%m%d%H%M%S')` and `nowIso` for the separate
`get_timestamp()` call. -/
def mkNotification (reason guest_language priority location additional_info
    nowCompact nowIso : String) : Notification :=
  { ticket_number := "TKT-" ++ nowCompact
    timestamp := nowIso
    reason := reason
    guest_language := guest_language
    priority := priority
    location := location
    additional_info := additional_info
    status := "pending"
    resolved_at := none }

/-- `notify_staff` (`src/hotel_staff_notification.py:82-140`): build the
record, save it, return the confirmation.  The sound and console output
are side channels with no effect on the store or the result. -/
def notify_staff (reason guest_language priority location additional_info
    nowCompact nowIso : String) (fs : FileState) : NotifyResult × FileState :=
  let ticket_number := "TKT-" ++ nowCompact
  let notification := mkNotification reason guest_language priority location
    additional_info nowCompact nowIso
  let fs' := save_notification notification fs
  ({ success := true
     ticket_number := ticket_number
     message := "Staff has been notified. Ticket number: " ++ ticket_number
     estimated_response_time :=
       if priority ≠ "urgent" then "2-3 minutes" else "1 minute" }, fs')

/-- `get_pending_notifications` (`src/hotel_staff_notification.py:143-146`). -/
def get_pending_notifications (fs : FileState) : List Notification :=
  (load_notifications fs).filter (fun n => n.status == "pending")

/-- The dict returned by `mark_notification_resolved`. -/
structure ResolveResult where
  success : Bool
  message : String
deriving Repr, DecidableEq

/-- The in-place mutation loop of `mark_notification_resolved`
(`src/hotel_staff_notification.py:153-156`): find the first record whose
`ticket_number` matches, set its `status` and `resolved_at`.  Returns
`none` when no record matches (the loop falls through). -/
def resolveFirst (ticket_number now : String) :
    List Notification → Option (List Notification)
  | [] => none
  | n :: rest =>
    if n.ticket_number == ticket_number then
      some ({ n with status := "resolved", resolved_at := some now } :: rest)
    else
      (resolveFirst ticket_number now rest).map (fun rest' => n :: rest')

/-- `mark_notification_resolved` (`src/hotel_staff_notification.py:149-163`):
on the first match the whole list is rewritten to the file and a success
dict returned; otherwise the file is untouched and a failure dict naming
the ticket is returned. -/
def mark_notification_resolved (ticket_number now : String) (fs : FileState) :
    ResolveResult × FileState :=
  match resolveFirst ticket_number now (load_notifications fs) with
  | some notifications =>
      ({ success := true
         message := "Ticket " ++ ticket_number ++ " marked as resolved" },
       FileState.valid notifications)
  | none =>
      ({ success := false
         message := "Ticket " ++ ticket_number ++ " not found" }, fs)

/-- The dict serialized by the `get_staff_status` tool
(`src/hotel_staff_notification.py:204-216`). -/
structure StaffStatus where
  pending_count : Nat
  pending_tickets : List String
deriving Repr, DecidableEq

/-- `get_staff_status` (`src/hotel_staff_notification.py:204-216`):
count of pending records and the ticket numbers of `pending[-5:]`,
i.e. the last at most five pending records. -/
def get_staff_status (fs : FileState) : StaffStatus :=
  let pending := get_pending_notifications fs
  { pending_count := pending.length
    pending_tickets := (pending.drop (pending.length - 5)).map
      (fun n => n.ticket_number) }

/-- Arguments of one `notify_staff` call, bundling the caller-supplied
fields with the two timestamp strings the call observes. -/
structure NotifyArgs where
  reason : String
  guest_language : String
  priority : String
  location : String
  additional_info : String
  nowCompact : String
  nowIso : String
deriving Repr, DecidableEq

/-- The record a given argument bundle files. -/
def NotifyArgs.record (a : NotifyArgs) : Notification :=
  mkNotification a.reason a.guest_language a.priority a.location
    a.additional_info a.nowCompact a.nowIso

/-- Run `notify_staff` on one argument bundle, keeping the store. -/
def fileOne (a : NotifyArgs) (fs : FileState) : NotifyResult × FileState :=
  notify_staff a.reason a.guest_language a.priority a.location
    a.additional_info a.nowCompact a.nowIso fs

/-- File a sequence of tickets left to right. -/
def fileMany (args : List NotifyArgs) (fs : FileState) : FileState :=
  args.foldl (fun s a => (fileOne a s).2) fs

/-- Store states reachable from a missing backing file by the two
mutating operations of the service. -/
inductive Reachable : FileState → Prop where
  | init : Reachable FileState.absent
  | notify (a : NotifyArgs) {fs : FileState} :
      Reachable fs → Reachable (fileOne a fs).2
  | resolve (ticket_number now : String) {fs : FileState} :
      Reachable fs → Reachable (mark_notification_resolved ticket_number now fs).2

/-! ### List helpers: the last `n` elements (the Python slice `l[-n:]`) -/

/-- The last `n` elements of a list, the Python slice `l[-n:]`. -/
def takeLast {α : Type _} (n : Nat) (l : List α) : List α := l.drop (l.length - n)

theorem takeLast_eq_self {α : Type _} {n : Nat} {l : List α} (h : l.length ≤ n) :
    takeLast n l = l := by
  unfold takeLast
  rw [Nat.sub_eq_zero_of_le h, List.drop_zero]

theorem takeLast_length_le {α : Type _} (n : Nat) (l : List α) :
    (takeLast n l).length ≤ n := by
  unfold takeLast
  rw [List.length_drop]
  omega

theorem takeLast_subset {α : Type _} (n : Nat) (l : List α) : takeLast n l ⊆ l :=
  List.drop_subset _ l

theorem take_append_take {α : Type _} (n : Nat) (a b : List α) :
    (a ++ b.take n).take n = (a ++ b).take n := by
  rw [List.take_append_eq_append_take, List.take_append_eq_append_take,
    List.take_take, Nat.min_eq_left (Nat.sub_le n a.length)]

theorem takeLast_eq_reverse {α : Type _} (n : Nat) (l : List α) :
    takeLast n l = (l.reverse.take n).reverse := by
  have h := @List.reverse_take _ l.reverse n
  rw [List.reverse_reverse, List.length_reverse] at h
  unfold takeLast
  rw [h]

theorem takeLast_idem_append {α : Type _} (n : Nat) (l m : List α) :
    takeLast n (takeLast n l ++ m) = takeLast n (l ++ m) := by
  rw [takeLast_eq_reverse n l, takeLast_eq_reverse, takeLast_eq_reverse,
    List.reverse_append, List.reverse_reverse, List.reverse_append,
    take_append_take]

theorem takeLast_append_single {α : Type _} (n : Nat) (hn : 1 ≤ n) (l : List α) (x : α) :
    takeLast n (l ++ [x]) = l.drop (l.length + 1 - n) ++ [x] := by
  unfold takeLast
  rw [List.length_append, List.length_singleton, List.drop_append_eq_append_drop]
  have h1 : l.length + 1 - n - l.length = 0 := by omega
  rw [h1, List.drop_zero]

/-! ### Characterizations of the store operations -/

theorem load_save (n : Notification) (fs : FileState) :
    load_notifications (save_notification n fs) =
      takeLast 1000 (load_notifications fs ++ [n]) := by
  simp only [save_notification, load_notifications]
  split
  · rfl
  · rename_i h
    exact (takeLast_eq_self (by omega)).symm

theorem fileOne_snd (a : NotifyArgs) (fs : FileState) :
    (fileOne a fs).2 = save_notification a.record fs := rfl

theorem load_fileOne (a : NotifyArgs) (fs : FileState) :
    load_notifications (fileOne a fs).2 =
      takeLast 1000 (load_notifications fs ++ [a.record]) := by
  rw [fileOne_snd, load_save]

theorem load_fileMany (args : List NotifyArgs) (fs : FileState)
    (h : (load_notifications fs).length ≤ 1000) :
    load_notifications (fileMany args fs) =
      takeLast 1000 (load_notifications fs ++ args.map NotifyArgs.record) := by
  induction args generalizing fs with
  | nil =>
      simp only [fileMany, List.foldl_nil, List.map_nil, List.append_nil]
      exact (takeLast_eq_self h).symm
  | cons a as ih =>
      have hstep : fileMany (a :: as) fs = fileMany as (fileOne a fs).2 := rfl
      have h' : (load_notifications (fileOne a fs).2).length ≤ 1000 := by
        rw [load_fileOne]
        exact takeLast_length_le _ _
      rw [hstep, ih _ h', load_fileOne, takeLast_idem_append, List.append_assoc,
        List.map_cons, List.singleton_append]

/-- Abbreviation for the record update `mark_notification_resolved` performs. -/
def resolvedVersion (n : Notification) (now : String) : Notification :=
  { n with status := "resolved", resolved_at := some now }

theorem resolveFirst_cons_pos {ticket_number now : String} {x : Notification}
    {rest : List Notification} (hx : x.ticket_number = ticket_number) :
    resolveFirst ticket_number now (x :: rest) =
      some (resolvedVersion x now :: rest) := by
  simp [resolveFirst, hx, resolvedVersion]

theorem resolveFirst_cons_neg {ticket_number now : String} {x : Notification}
    {rest : List Notification} (hx : x.ticket_number ≠ ticket_number) :
    resolveFirst ticket_number now (x :: rest) =
      (resolveFirst ticket_number now rest).map (fun r => x :: r) := by
  simp [resolveFirst, hx]

theorem resolveFirst_eq_none {ticket_number now : String} {l : List Notification} :
    resolveFirst ticket_number now l = none ↔ ∀ m ∈ l, m.ticket_number ≠ ticket_number := by
  induction l with
  | nil => simp [resolveFirst]
  | cons n rest ih =>
      by_cases h : n.ticket_number = ticket_number
      · simp [resolveFirst, h]
      · simp [resolveFirst, h, ih]

theorem resolveFirst_some_of_decomp (ticket_number now : String)
    (l₁ : List Notification) (n : Notification) (l₂ : List Notification)
    (h₁ : ∀ m ∈ l₁, m.ticket_number ≠ ticket_number)
    (hn : n.ticket_number = ticket_number) :
    resolveFirst ticket_number now (l₁ ++ n :: l₂) =
      some (l₁ ++ resolvedVersion n now :: l₂) := by
  induction l₁ with
  | nil => simp [resolveFirst, hn, resolvedVersion]
  | cons m l₁ ih =>
      have hm : m.ticket_number ≠ ticket_number := h₁ m (List.mem_cons_self m l₁)
      have h₁' : ∀ x ∈ l₁, x.ticket_number ≠ ticket_number :=
        fun x hx => h₁ x (List.mem_cons_of_mem m hx)
      simp [resolveFirst, hm, ih h₁']

theorem resolveFirst_length {ticket_number now : String} {l l' : List Notification}
    (h : resolveFirst ticket_number now l = some l') : l'.length = l.length := by
  induction l generalizing l' with
  | nil => simp [resolveFirst] at h
  | cons n rest ih =>
      by_cases hn : n.ticket_number = ticket_number
      · simp [resolveFirst, hn] at h
        subst h
        simp
      · simp [resolveFirst, hn] at h
        obtain ⟨rest', hrest, hl'⟩ := h
        subst hl'
        simp [ih hrest]

theorem resolveFirst_mem {ticket_number now : String} {l l' : List Notification}
    (h : resolveFirst ticket_number now l = some l') :
    ∀ n ∈ l', n ∈ l ∨ ∃ m ∈ l, n = resolvedVersion m now := by
  induction l generalizing l' with
  | nil => simp [resolveFirst] at h
  | cons x rest ih =>
      by_cases hx : x.ticket_number = ticket_number
      · rw [resolveFirst_cons_pos hx] at h
        injection h with h
        subst h
        intro n hn
        rcases List.mem_cons.mp hn with h1 | h1
        · exact Or.inr ⟨x, List.mem_cons_self x rest, h1⟩
        · exact Or.inl (List.mem_cons_of_mem x h1)
      · simp [resolveFirst, hx] at h
        obtain ⟨rest', hrest, hl'⟩ := h
        subst hl'
        intro n hn
        rcases List.mem_cons.mp hn with h1 | h1
        · exact Or.inl (h1 ▸ List.mem_cons_self x rest)
        · rcases ih hrest n h1 with h2 | ⟨m, hm, hmv⟩
          · exact Or.inl (List.mem_cons_of_mem x h2)
          · exact Or.inr ⟨m, List.mem_cons_of_mem x hm, hmv⟩

theorem resolveFirst_get {ticket_number now : String} {l l' : List Notification}
    (h : resolveFirst ticket_number now l = some l') :
    ∀ i (hi : i < l.length) (hi' : i < l'.length),
      l'.get ⟨i, hi'⟩ = l.get ⟨i, hi⟩ ∨
      l'.get ⟨i, hi'⟩ = resolvedVersion (l.get ⟨i, hi⟩) now := by
  induction l generalizing l' with
  | nil => simp [resolveFirst] at h
  | cons x rest ih =>
      by_cases hx : x.ticket_number = ticket_number
      · rw [resolveFirst_cons_pos hx] at h
        injection h with h
        subst h
        intro i hi hi'
        match i with
        | 0 => exact Or.inr rfl
        | j + 1 => exact Or.inl rfl
      · simp [resolveFirst, hx] at h
        obtain ⟨rest', hrest, hl'⟩ := h
        subst hl'
        intro i hi hi'
        match i with
        | 0 => exact Or.inl (by simp)
        | j + 1 =>
            have hj : j < rest.length := by simpa using hi
            have hj' : j < rest'.length := by simpa using hi'
            simpa using ih hrest j hj hj'

theorem mark_snd_of_none {ticket_number now : String} {fs : FileState}
    (h : resolveFirst ticket_number now (load_notifications fs) = none) :
    (mark_notification_resolved ticket_number now fs).2 = fs := by
  unfold mark_notification_resolved
  rw [h]

theorem mark_snd_of_some {ticket_number now : String} {fs : FileState}
    {l' : List Notification}
    (h : resolveFirst ticket_number now (load_notifications fs) = some l') :
    (mark_notification_resolved ticket_number now fs).2 = FileState.valid l' := by
  unfold mark_notification_resolved
  rw [h]

theorem load_fileOne_decomp (a : NotifyArgs) (fs : FileState) :
    load_notifications (fileOne a fs).2 =
      (load_notifications fs).drop ((load_notifications fs).length + 1 - 1000) ++
        [a.record] := by
  rw [load_fileOne, takeLast_append_single 1000 (by omega)]

/-! ### The lifecycle invariant (claim C3) -/

/-- A record is either pending without a resolution time or resolved with
one; in particular `resolved_at` is populated iff `status = "resolved"`. -/
def statusOk (n : Notification) : Prop :=
  (n.status = "pending" ∧ n.resolved_at = none) ∨
  (n.status = "resolved" ∧ n.resolved_at ≠ none)

/-- Every record in the store satisfies `statusOk`. -/
def StoreInv (fs : FileState) : Prop :=
  ∀ n ∈ load_notifications fs, statusOk n

/-- Filing never mutates an existing record: every record after a
`notify_staff` call is either an old record or the newly created one,
which starts pending with no `resolved_at`. -/
def NotifyStep (fs : FileState) : Prop :=
  ∀ a : NotifyArgs, ∀ n ∈ load_notifications (fileOne a fs).2,
    n ∈ load_notifications fs ∨ (n.status = "pending" ∧ n.resolved_at = none)

/-- Resolving preserves the store's length, and at each position either
leaves the status unchanged or moves it from `"pending"` to
`"resolved"` — never the reverse. -/
def ResolveStep (fs : FileState) : Prop :=
  ∀ ticket_number now : String,
    (load_notifications (mark_notification_resolved ticket_number now fs).2).length =
      (load_notifications fs).length ∧
    ∀ i (hi : i < (load_notifications fs).length)
      (hi' : i < (load_notifications (mark_notification_resolved ticket_number now fs).2).length),
      ((load_notifications (mark_notification_resolved ticket_number now fs).2).get ⟨i, hi'⟩).status =
        ((load_notifications fs).get ⟨i, hi⟩).status ∨
      (((load_notifications fs).get ⟨i, hi⟩).status = "pending" ∧
        ((load_notifications (mark_notification_resolved ticket_number now fs).2).get ⟨i, hi'⟩).status = "resolved")

theorem notifyStep_all (fs : FileState) : NotifyStep fs := by
  intro a n hn
  rw [load_fileOne] at hn
  have hmem := takeLast_subset 1000 _ hn
  rcases List.mem_append.mp hmem with h1 | h1
  · exact Or.inl h1
  · have h2 : n = a.record := by simpa using h1
    subst h2
    exact Or.inr ⟨rfl, rfl⟩

theorem storeInv_reachable {fs : FileState} (h : Reachable fs) : StoreInv fs := by
  induction h with
  | init =>
      intro n hn
      simp [load_notifications] at hn
  | notify a hr ih =>
      intro n hn
      rcases notifyStep_all _ a n hn with h1 | h1
      · exact ih n h1
      · exact Or.inl h1
  | resolve tn now hr ih =>
      intro n hn
      rcases hres : resolveFirst tn now (load_notifications _) with _ | l'
      · rw [mark_snd_of_none hres] at hn
        exact ih n hn
      · rw [mark_snd_of_some hres] at hn
        rcases resolveFirst_mem hres n hn with h1 | ⟨m, _, hmv⟩
        · exact ih n h1
        · subst hmv
          exact Or.inr ⟨rfl, by simp [resolvedVersion]⟩

theorem resolveStep_of_inv {fs : FileState} (hinv : StoreInv fs) : ResolveStep fs := by
  intro tn now
  rcases hres : resolveFirst tn now (load_notifications fs) with _ | l'
  · rw [mark_snd_of_none hres]
    exact ⟨rfl, fun i hi hi' => Or.inl rfl⟩
  · rw [mark_snd_of_some hres]
    have hlen : l'.length = (load_notifications fs).length := resolveFirst_length hres
    refine ⟨by simpa [load_notifications] using hlen, ?_⟩
    intro i hi hi'
    have hi'' : i < l'.length := by simpa [load_notifications] using hi'
    have hgv : (load_notifications (FileState.valid l')).get ⟨i, hi'⟩ =
        l'.get ⟨i, hi''⟩ := rfl
    rcases resolveFirst_get hres i hi hi'' with h1 | h1
    · exact Or.inl (by rw [hgv, h1])
    · have hold := hinv _ (List.get_mem (load_notifications fs) i hi)
      rcases hold with ⟨hp, _⟩ | ⟨hp, _⟩
      · exact Or.inr ⟨hp, by rw [hgv, h1]; rfl⟩
      · exact Or.inl (by rw [hgv, h1]; exact hp.symm)

/-- A concrete pending record used to instantiate the conditional theorems. -/
def sampleTicket : Notification :=
  { ticket_number := "TKT-20250101120000", timestamp := "2025-01-01T12:00:00.000001",
    reason := "Check-in", guest_language := "Korean", priority := "normal",
    location := "Front Desk Kiosk", additional_info := "", status := "pending",
    resolved_at := none }

/-! ### The claims -/

/-- C1: filing with priority exactly `"urgent"` yields estimated response
time `"1 minute"`; every other priority string yields `"2-3 minutes"`; and
the priority string is stored unvalidated in the persisted record. -/
theorem urgent_response_time (reason guest_language priority location
    additional_info nowCompact nowIso : String) (fs : FileState) :
    (notify_staff reason guest_language priority location additional_info
        nowCompact nowIso fs).1.estimated_response_time =
      (if priority = "urgent" then "1 minute" else "2-3 minutes") ∧
    (load_notifications (notify_staff reason guest_language priority location
        additional_info nowCompact nowIso fs).2).getLast? =
      some (mkNotification reason guest_language priority location
        additional_info nowCompact nowIso) ∧
    (mkNotification reason guest_language priority location additional_info
        nowCompact nowIso).priority = priority := by
  refine ⟨?_, ?_, rfl⟩
  · by_cases h : priority = "urgent" <;> simp [notify_staff, h]
  · have h2 : (notify_staff reason guest_language priority location
        additional_info nowCompact nowIso fs).2 =
        save_notification (mkNotification reason guest_language priority
          location additional_info nowCompact nowIso) fs := rfl
    rw [h2, load_save, takeLast_append_single 1000 (by omega),
      List.getLast?_concat]

/-- C3: in every reachable store state each record is pending with no
`resolved_at` or resolved with one (`resolved_at` present iff resolved);
filing only appends a fresh pending record and never mutates existing
ones; resolving preserves length and can only move a status from
`"pending"` to `"resolved"`, never back. -/
theorem ticket_lifecycle_invariant (fs : FileState) (h : Reachable fs) :
    StoreInv fs ∧ NotifyStep fs ∧ ResolveStep fs :=
  ⟨storeInv_reachable h, notifyStep_all fs, resolveStep_of_inv (storeInv_reachable h)⟩

theorem ticket_lifecycle_invariant_witness :
    Reachable FileState.absent ∧
    (StoreInv FileState.absent ∧ NotifyStep FileState.absent ∧
      ResolveStep FileState.absent) :=
  ⟨Reachable.init, ticket_lifecycle_invariant FileState.absent Reachable.init⟩

/-- C5: resolving an id that matches no stored record returns a failure
result naming that id and leaves the persisted store unchanged. -/
theorem resolve_unknown_id (ticket_number now : String) (fs : FileState)
    (h : ∀ m ∈ load_notifications fs, m.ticket_number ≠ ticket_number) :
    (mark_notification_resolved ticket_number now fs).1.success = false ∧
    (mark_notification_resolved ticket_number now fs).1.message =
      "Ticket " ++ ticket_number ++ " not found" ∧
    (mark_notification_resolved ticket_number now fs).2 = fs := by
  have hres : resolveFirst ticket_number now (load_notifications fs) = none :=
    resolveFirst_eq_none.mpr h
  unfold mark_notification_resolved
  rw [hres]
  exact ⟨rfl, rfl, rfl⟩

theorem resolve_unknown_id_witness :
    (∀ m ∈ load_notifications (FileState.valid [sampleTicket]),
      m.ticket_number ≠ "TKT-9") ∧
    ((mark_notification_resolved "TKT-9" "2025-01-01T12:05:00"
        (FileState.valid [sampleTicket])).1.success = false ∧
      (mark_notification_resolved "TKT-9" "2025-01-01T12:05:00"
        (FileState.valid [sampleTicket])).1.message =
        "Ticket " ++ "TKT-9" ++ " not found" ∧
      (mark_notification_resolved "TKT-9" "2025-01-01T12:05:00"
        (FileState.valid [sampleTicket])).2 = FileState.valid [sampleTicket]) :=
  ⟨by decide, resolve_unknown_id "TKT-9" "2025-01-01T12:05:00"
    (FileState.valid [sampleTicket]) (by decide)⟩

/-- C6: after filing, reloading the store from the persisted file yields
(as its most recent record) a record whose `reason`, `guest_language`,
`location`, `additional_info` and `priority` equal the filing arguments. -/
theorem persistence_roundtrip (a : NotifyArgs) (fs : FileState) :
    ∃ n : Notification,
      (load_notifications (fileOne a fs).2).getLast? = some n ∧
      n.reason = a.reason ∧ n.guest_language = a.guest_language ∧
      n.location = a.location ∧ n.additional_info = a.additional_info ∧
      n.priority = a.priority := by
  refine ⟨a.record, ?_, rfl, rfl, rfl, rfl, rfl⟩
  rw [load_fileOne_decomp, List.getLast?_concat]

/-- C9: loading returns the stored sequence from a valid file and the
empty sequence (without any error surfacing to the caller — the embedded
function is total) when the file is absent or unreadable/corrupt. -/
theorem load_recovers_empty :
    load_notifications FileState.absent = [] ∧
    load_notifications FileState.corrupt = [] ∧
    ∀ l : List Notification, load_notifications (FileState.valid l) = l :=
  ⟨rfl, rfl, fun _ => rfl⟩

/-- C10: a successful resolve rewrites exactly the first matching record,
changing only its `status` and `resolved_at` fields; all records before
and after it, the store's length and its order are untouched. -/
theorem resolve_frame (ticket_number now : String) (fs : FileState)
    (l₁ : List Notification) (n : Notification) (l₂ : List Notification)
    (hdecomp : load_notifications fs = l₁ ++ n :: l₂)
    (hfirst : ∀ m ∈ l₁, m.ticket_number ≠ ticket_number)
    (hmatch : n.ticket_number = ticket_number) :
    (mark_notification_resolved ticket_number now fs).1.success = true ∧
    load_notifications (mark_notification_resolved ticket_number now fs).2 =
      l₁ ++ { n with status := "resolved", resolved_at := some now } :: l₂ ∧
    (load_notifications (mark_notification_resolved ticket_number now fs).2).length =
      (load_notifications fs).length := by
  have hres : resolveFirst ticket_number now (load_notifications fs) =
      some (l₁ ++ resolvedVersion n now :: l₂) := by
    rw [hdecomp]
    exact resolveFirst_some_of_decomp _ _ _ _ _ hfirst hmatch
  have h2 := mark_snd_of_some hres
  refine ⟨?_, ?_, ?_⟩
  · unfold mark_notification_resolved
    rw [hres]
  · rw [h2]
    rfl
  · rw [h2, hdecomp]
    show (l₁ ++ resolvedVersion n now :: l₂).length = _
    simp

theorem resolve_frame_witness :
    (load_notifications (FileState.valid [sampleTicket]) =
        [] ++ sampleTicket :: [] ∧
      (∀ m ∈ ([] : List Notification),
        m.ticket_number ≠ "TKT-20250101120000") ∧
      sampleTicket.ticket_number = "TKT-20250101120000") ∧
    ((mark_notification_resolved "TKT-20250101120000" "2025-01-01T12:05:00"
        (FileState.valid [sampleTicket])).1.success = true ∧
      load_notifications (mark_notification_resolved "TKT-20250101120000"
        "2025-01-01T12:05:00" (FileState.valid [sampleTicket])).2 =
        [] ++ { sampleTicket with status := "resolved", resolved_at := some "2025-01-01T12:05:00" } :: [] ∧
      (load_notifications (mark_notification_resolved "TKT-20250101120000"
        "2025-01-01T12:05:00" (FileState.valid [sampleTicket])).2).length =
        (load_notifications (FileState.valid [sampleTicket])).length) :=
  ⟨⟨rfl, by simp, rfl⟩,
    resolve_frame "TKT-20250101120000" "2025-01-01T12:05:00"
      (FileState.valid [sampleTicket]) [] sampleTicket [] rfl (by simp) rfl⟩

/-- Filing arguments whose generated id is fresh for an empty store. -/
def freshArgs : NotifyArgs :=
  { reason := "Check-in", guest_language := "Korean", priority := "urgent",
    location := "Front Desk Kiosk", additional_info := "",
    nowCompact := "20250101120000", nowIso := "2025-01-01T12:00:00.000001" }

/-- C2 (amended): when the just-filed ticket's id matches no record that
was already in the store, resolving that id afterwards succeeds, leaves
the just-filed record (the store's most recent one) with status
`"resolved"` and `resolved_at` set, and no record with that id remains in
the pending listing. -/
theorem resolve_fresh_filed (a : NotifyArgs) (fs : FileState) (now2 : String)
    (hfresh : ∀ m ∈ load_notifications fs,
      m.ticket_number ≠ a.record.ticket_number) :
    (mark_notification_resolved (fileOne a fs).1.ticket_number now2
        (fileOne a fs).2).1.success = true ∧
    (load_notifications (mark_notification_resolved
        (fileOne a fs).1.ticket_number now2 (fileOne a fs).2).2).getLast? =
      some { a.record with status := "resolved", resolved_at := some now2 } ∧
    ∀ m ∈ get_pending_notifications (mark_notification_resolved
        (fileOne a fs).1.ticket_number now2 (fileOne a fs).2).2,
      m.ticket_number ≠ (fileOne a fs).1.ticket_number := by
  have htn : (fileOne a fs).1.ticket_number = a.record.ticket_number := rfl
  have hload := load_fileOne_decomp a fs
  have hl₁ : ∀ m ∈ (load_notifications fs).drop
      ((load_notifications fs).length + 1 - 1000),
      m.ticket_number ≠ a.record.ticket_number :=
    fun m hm => hfresh m (List.drop_subset _ _ hm)
  have hres : resolveFirst a.record.ticket_number now2
      (load_notifications (fileOne a fs).2) =
      some ((load_notifications fs).drop
        ((load_notifications fs).length + 1 - 1000) ++
        resolvedVersion a.record now2 :: []) := by
    rw [hload]
    exact resolveFirst_some_of_decomp _ _ _ _ _ hl₁ rfl
  rw [htn]
  have h2 := mark_snd_of_some hres
  refine ⟨?_, ?_, ?_⟩
  · unfold mark_notification_resolved
    rw [hres]
  · rw [h2]
    show (_ ++ [resolvedVersion a.record now2]).getLast? = _
    rw [List.getLast?_concat]
    rfl
  · intro m hm
    rw [h2] at hm
    unfold get_pending_notifications at hm
    simp only [load_notifications] at hm
    rcases List.mem_filter.mp hm with ⟨hmem, hp⟩
    rcases List.mem_append.mp hmem with h1 | h1
    · exact hl₁ m h1
    · have hm2 : m = resolvedVersion a.record now2 := by simpa using h1
      subst hm2
      have hps : (resolvedVersion a.record now2).status = "resolved" := rfl
      rw [hps] at hp
      exact absurd hp (by decide)

theorem resolve_fresh_filed_witness :
    (∀ m ∈ load_notifications FileState.absent,
      m.ticket_number ≠ freshArgs.record.ticket_number) ∧
    ((mark_notification_resolved
        (fileOne freshArgs FileState.absent).1.ticket_number
        "2025-01-01T12:05:00" (fileOne freshArgs FileState.absent).2).1.success = true ∧
      (load_notifications (mark_notification_resolved
        (fileOne freshArgs FileState.absent).1.ticket_number
        "2025-01-01T12:05:00" (fileOne freshArgs FileState.absent).2).2).getLast? =
        some { freshArgs.record with status := "resolved", resolved_at := some "2025-01-01T12:05:00" } ∧
      ∀ m ∈ get_pending_notifications (mark_notification_resolved
        (fileOne freshArgs FileState.absent).1.ticket_number
        "2025-01-01T12:05:00" (fileOne freshArgs FileState.absent).2).2,
        m.ticket_number ≠ (fileOne freshArgs FileState.absent).1.ticket_number) :=
  ⟨by decide, resolve_fresh_filed freshArgs FileState.absent
    "2025-01-01T12:05:00" (by decide)⟩

/-- First of two filings that fall within the same clock second. -/
def collideArgs1 : NotifyArgs :=
  { reason := "Check-in", guest_language := "Korean", priority := "normal",
    location := "Front Desk Kiosk", additional_info := "",
    nowCompact := "20250101130000", nowIso := "2025-01-01T13:00:00.000001" }

/-- Second filing in the same clock second: same generated id. -/
def collideArgs2 : NotifyArgs :=
  { reason := "Payment question", guest_language := "English",
    priority := "normal", location := "Front Desk Kiosk",
    additional_info := "", nowCompact := "20250101130000",
    nowIso := "2025-01-01T13:00:00.700001" }

/-- C2 counterexample: two tickets filed within the same second share the
generated id `TKT-20250101130000`.  Resolving the id returned for the
second, just-filed ticket succeeds but rewrites the earlier record (the
first match); the just-filed record is still `"pending"`, has no
`resolved_at`, and still appears in the pending listing — contradicting
the claim for this id. -/
theorem resolve_just_filed_counterexample :
    collideArgs2.record.ticket_number =
      (fileOne collideArgs2 (fileOne collideArgs1 FileState.absent).2).1.ticket_number ∧
    (mark_notification_resolved
        (fileOne collideArgs2 (fileOne collideArgs1 FileState.absent).2).1.ticket_number
        "2025-01-01T13:05:00"
        (fileOne collideArgs2 (fileOne collideArgs1 FileState.absent).2).2).1.success = true ∧
    (load_notifications (mark_notification_resolved
        (fileOne collideArgs2 (fileOne collideArgs1 FileState.absent).2).1.ticket_number
        "2025-01-01T13:05:00"
        (fileOne collideArgs2 (fileOne collideArgs1 FileState.absent).2).2).2).getLast? =
      some collideArgs2.record ∧
    collideArgs2.record.status = "pending" ∧
    collideArgs2.record.resolved_at = none ∧
    collideArgs2.record ∈ get_pending_notifications (mark_notification_resolved
        (fileOne collideArgs2 (fileOne collideArgs1 FileState.absent).2).1.ticket_number
        "2025-01-01T13:05:00"
        (fileOne collideArgs2 (fileOne collideArgs1 FileState.absent).2).2).2 := by
  decide

/-- C4: filing 1005 tickets into an empty store retains exactly the
records of the last 1000 filings (the first 5 are evicted), the stored
list has length 1000, the pending count is at most 1000, every record
from the 6th filing on is present, and as long as the filed records are
pairwise distinct none of the first 5 is present. -/
theorem retention_bound (args : List NotifyArgs) (h : args.length = 1005) :
    load_notifications (fileMany args FileState.absent) =
      (args.map NotifyArgs.record).drop 5 ∧
    (load_notifications (fileMany args FileState.absent)).length = 1000 ∧
    (get_staff_status (fileMany args FileState.absent)).pending_count ≤ 1000 ∧
    (∀ a ∈ args.drop 5,
      a.record ∈ load_notifications (fileMany args FileState.absent)) ∧
    ((args.map NotifyArgs.record).Nodup →
      ∀ a ∈ args.take 5,
        a.record ∉ load_notifications (fileMany args FileState.absent)) := by
  have hload : load_notifications (fileMany args FileState.absent) =
      (args.map NotifyArgs.record).drop 5 := by
    rw [load_fileMany args FileState.absent (by simp [load_notifications])]
    show takeLast 1000 ([] ++ args.map NotifyArgs.record) = _
    rw [List.nil_append]
    unfold takeLast
    rw [List.length_map, h]
  have hlen : (load_notifications (fileMany args FileState.absent)).length = 1000 := by
    rw [hload, List.length_drop, List.length_map, h]
  refine ⟨hload, hlen, ?_, ?_, ?_⟩
  · have hc : (get_staff_status (fileMany args FileState.absent)).pending_count =
        ((load_notifications (fileMany args FileState.absent)).filter
          (fun n => n.status == "pending")).length := rfl
    rw [hc, ← hlen]
    exact List.length_filter_le _ _
  · intro a ha
    rw [hload, ← List.map_drop]
    exact List.mem_map_of_mem _ ha
  · intro hnd a ha hmem
    rw [hload] at hmem
    have htake : a.record ∈ (args.map NotifyArgs.record).take 5 := by
      rw [← List.map_take]
      exact List.mem_map_of_mem _ ha
    exact List.disjoint_take_drop hnd (le_refl 5) htake hmem

/-- Concrete run of 1005 filings with pairwise distinct timestamps. -/
def c4Args : List NotifyArgs :=
  (List.range 1005).map fun i =>
    { reason := "r", guest_language := "Korean", priority := "normal",
      location := "Front Desk Kiosk", additional_info := "",
      nowCompact := toString i, nowIso := toString i }

theorem retention_bound_witness :
    c4Args.length = 1005 ∧
    (load_notifications (fileMany c4Args FileState.absent) =
        (c4Args.map NotifyArgs.record).drop 5 ∧
      (load_notifications (fileMany c4Args FileState.absent)).length = 1000 ∧
      (get_staff_status (fileMany c4Args FileState.absent)).pending_count ≤ 1000 ∧
      (∀ a ∈ c4Args.drop 5,
        a.record ∈ load_notifications (fileMany c4Args FileState.absent)) ∧
      ((c4Args.map NotifyArgs.record).Nodup →
        ∀ a ∈ c4Args.take 5,
          a.record ∉ load_notifications (fileMany c4Args FileState.absent))) :=
  ⟨by simp [c4Args], retention_bound c4Args (by simp [c4Args])⟩

/-- C7: filing `N ≤ 1000` tickets into an empty store with no resolutions
makes the reported pending count exactly `N`. -/
theorem pending_count_filed (args : List NotifyArgs) (h : args.length ≤ 1000) :
    (get_staff_status (fileMany args FileState.absent)).pending_count =
      args.length := by
  have hload : load_notifications (fileMany args FileState.absent) =
      args.map NotifyArgs.record := by
    rw [load_fileMany args FileState.absent (by simp [load_notifications])]
    show takeLast 1000 ([] ++ args.map NotifyArgs.record) = _
    rw [List.nil_append]
    exact takeLast_eq_self (by simpa using h)
  have hc : (get_staff_status (fileMany args FileState.absent)).pending_count =
      ((load_notifications (fileMany args FileState.absent)).filter
        (fun n => n.status == "pending")).length := rfl
  rw [hc, hload, List.filter_eq_self.mpr ?hall, List.length_map]
  case hall =>
    intro n hn
    rcases List.mem_map.mp hn with ⟨a, _, rfl⟩
    rfl

theorem pending_count_filed_witness :
    ([collideArgs1, freshArgs] : List NotifyArgs).length ≤ 1000 ∧
    (get_staff_status (fileMany [collideArgs1, freshArgs] FileState.absent)).pending_count =
      ([collideArgs1, freshArgs] : List NotifyArgs).length :=
  ⟨by decide, pending_count_filed [collideArgs1, freshArgs] (by decide)⟩

/-- C8: for every store state the status report counts exactly the
records whose status is `"pending"` and lists at most five ids, namely
the ids of a suffix (the most recent end, the store being kept in
creation order) of the pending records, the whole pending id list when
there are at most five. -/
theorem staff_status_spec (fs : FileState) :
    (get_staff_status fs).pending_count =
      (load_notifications fs).countP (fun n => n.status == "pending") ∧
    (get_staff_status fs).pending_tickets.length ≤ 5 ∧
    (get_staff_status fs).pending_tickets.length =
      min 5 (get_staff_status fs).pending_count ∧
    (get_staff_status fs).pending_tickets <:+
      ((load_notifications fs).filter (fun n => n.status == "pending")).map
        (fun n => n.ticket_number) ∧
    ((get_staff_status fs).pending_count ≤ 5 →
      (get_staff_status fs).pending_tickets =
        ((load_notifications fs).filter (fun n => n.status == "pending")).map
          (fun n => n.ticket_number)) := by
  have hc : (get_staff_status fs).pending_count =
      ((load_notifications fs).filter (fun n => n.status == "pending")).length := rfl
  have ht : (get_staff_status fs).pending_tickets =
      (((load_notifications fs).filter (fun n => n.status == "pending")).drop
        (((load_notifications fs).filter (fun n => n.status == "pending")).length - 5)).map
        (fun n => n.ticket_number) := rfl
  refine ⟨?_, ?_, ?_, ?_, ?_⟩
  · rw [hc, List.countP_eq_length_filter]
  · rw [ht, List.length_map, List.length_drop]
    omega
  · rw [ht, hc, List.length_map, List.length_drop]
    omega
  · rw [ht, List.map_drop]
    exact List.drop_suffix _ _
  · intro h5
    rw [hc] at h5
    rw [ht, Nat.sub_eq_zero_of_le h5, List.drop_zero]

end HotelStaff
